import Mathlib

/-!
Verification development for the todo record store of this repository.

The store under study is `src/todo_api/json_db.py`: a JSON-file-backed
mapping from todo id to todo record, together with its HTTP caller
`src/todo_api/main.py` and the models in `src/todo_api/models.py`.

The embedding below mirrors `json_db.py` directly:

* A record is the dict built by `create_todo` (`json_db.py` lines 92-100),
  plus an optional `due_date` field modelling the presence or absence of a
  `"due_date"` key in the stored JSON object (`create_todo` never writes
  such a key and `update_todo` never touches one, faithfully reproduced
  here).
* The file system is modelled by the observable states the module
  distinguishes: the primary file `DB_FILE` and the seed file
  `SAMPLE_DB_FILE` are each absent, malformed (present but failing
  `json.load`), or well-formed JSON holding a mapping.
* A Python dict is modelled as an insertion-ordered association list:
  assignment to an existing key replaces in place, assignment to a new key
  appends, `del` removes the binding. `list(d.values())` is the list of
  values in order.
* `datetime.now().isoformat()` is modelled by a `Nat` timestamp supplied
  as the `now` argument; `str(uuid.uuid4())` is modelled by `uuidStr`
  applied to a 128-bit random seed supplied as an argument.
-/

/-- One todo record: the object stored under an id in the JSON file.
The fields `id`, `title`, `description`, `completed`, `created_at`,
`updated_at` are exactly the keys written by `create_todo`
(`json_db.py` lines 94-100); `due_date` is `some s` when the stored object
carries a `"due_date"` key with string value `s` and `none` when the key
is absent. -/
structure Todo where
  id : String
  title : String
  description : String
  completed : Bool
  due_date : Option String
  created_at : Nat
  updated_at : Nat
deriving DecidableEq

/-- Python dict lookup `d.get(k)` on the insertion-ordered model. -/
def lookupKey (m : List (String × Todo)) (k : String) : Option Todo :=
  match m with
  | [] => none
  | (k2, v) :: rest => if k2 = k then some v else lookupKey rest k

/-- Python dict assignment `d[k] = v`: replaces in place when the key is
present, appends otherwise. -/
def setKey (m : List (String × Todo)) (k : String) (v : Todo) :
    List (String × Todo) :=
  match m with
  | [] => [(k, v)]
  | (k2, v2) :: rest =>
      if k2 = k then (k, v) :: rest else (k2, v2) :: setKey rest k v

/-- Python `del d[k]` (keys are unique in a dict; removes the binding). -/
def delKey (m : List (String × Todo)) (k : String) : List (String × Todo) :=
  match m with
  | [] => []
  | (k2, v2) :: rest =>
      if k2 = k then rest else (k2, v2) :: delKey rest k

/-- Observable state of one file as `json_db.py` distinguishes it: the
file does not exist, it exists but `json.load` fails, or it holds a
mapping from id to record. -/
inductive FileContent where
  | absent : FileContent
  | malformed : FileContent
  | data : List (String × Todo) → FileContent
deriving DecidableEq

/-- The file system seen by `json_db.py`: the primary file `DB_FILE`
(`todo_data.json`) and the seed file `SAMPLE_DB_FILE`
(`todo_data.sample.json`). -/
structure FS where
  db : FileContent
  sample : FileContent
deriving DecidableEq

/-- `_load_todos` (`json_db.py` lines 22-66): under the file lock, if
`DB_FILE` is missing it is seeded from `SAMPLE_DB_FILE` when that file
parses, otherwise created empty; if `DB_FILE` exists but fails to parse it
is overwritten with an empty mapping; otherwise its contents are returned.
Returns the loaded mapping together with the file system after any writes
the load performed. -/
def _load_todos (fs : FS) : List (String × Todo) × FS :=
  match fs.db with
  | FileContent.absent =>
      match fs.sample with
      | FileContent.data todos =>
          (todos, { fs with db := FileContent.data todos })
      | FileContent.malformed =>
          ([], { fs with db := FileContent.data [] })
      | FileContent.absent =>
          ([], { fs with db := FileContent.data [] })
  | FileContent.malformed => ([], { fs with db := FileContent.data [] })
  | FileContent.data todos => (todos, fs)

/-- `_save_todos` (`json_db.py` lines 68-75): under the file lock,
overwrite `DB_FILE` with the given mapping. -/
def _save_todos (todos : List (String × Todo)) (fs : FS) : FS :=
  { fs with db := FileContent.data todos }

/-- `get_all_todos` (`json_db.py` lines 77-80): load, then
`list(todos_db.values())`. -/
def get_all_todos (fs : FS) : List Todo × FS :=
  let loaded := _load_todos fs
  (loaded.1.map Prod.snd, loaded.2)

/-- `get_todo` (`json_db.py` lines 82-85): load, then `todos_db.get(id)`. -/
def get_todo (todo_id : String) (fs : FS) : Option Todo × FS :=
  let loaded := _load_todos fs
  (lookupKey loaded.1 todo_id, loaded.2)

/-- `create_todo` (`json_db.py` lines 87-104). Its Python signature is
`create_todo(title, description="", completed=False)`; it carries no
`due_date` parameter. `todo_id` stands for the `str(uuid.uuid4())`
generated inside and `now` for `datetime.now().isoformat()`. The record
it builds has no `due_date` key, modelled as `due_date := none`. -/
def create_todo (todo_id : String) (now : Nat) (title : String)
    (description : String) (completed : Bool) (fs : FS) : Todo × FS :=
  let loaded := _load_todos fs
  let todo : Todo :=
    { id := todo_id, title := title, description := description,
      completed := completed, due_date := none,
      created_at := now, updated_at := now }
  (todo, _save_todos (setKey loaded.1 todo_id todo) loaded.2)

/-- The partial-update dict passed to `update_todo`: each field is `some v`
when the corresponding key is present in the dict with value `v` and
`none` when the key is absent. `due_date` is carried because
`main.py` (lines 126-128) places a `"due_date"` key in this dict. -/
structure UpdateData where
  title : Option String
  description : Option String
  completed : Option Bool
  due_date : Option String
deriving DecidableEq

/-- The field updates of `update_todo` (`json_db.py` lines 113-124): the
three `if key in data` assignments for `title`, `description`,
`completed`, then the unconditional `updated_at` assignment. There is no
branch for `due_date` in the source, so the `due_date` entry of `data` is
not consulted. -/
def applyUpdate (todo : Todo) (data : UpdateData) (now : Nat) : Todo :=
  let t1 := match data.title with
    | some v => { todo with title := v }
    | none => todo
  let t2 := match data.description with
    | some v => { t1 with description := v }
    | none => t1
  let t3 := match data.completed with
    | some v => { t2 with completed := v }
    | none => t2
  { t3 with updated_at := now }

/-- `update_todo` (`json_db.py` lines 106-127): load; if the id is absent
return `None` without saving; otherwise apply the supplied fields, stamp
`updated_at`, save, and return the updated record. -/
def update_todo (todo_id : String) (data : UpdateData) (now : Nat)
    (fs : FS) : Option Todo × FS :=
  let loaded := _load_todos fs
  match lookupKey loaded.1 todo_id with
  | none => (none, loaded.2)
  | some todo =>
      let todo2 := applyUpdate todo data now
      (some todo2, _save_todos (setKey loaded.1 todo_id todo2) loaded.2)

/-- `delete_todo` (`json_db.py` lines 129-138): load; if the id is absent
return `False` without saving; otherwise delete, save, return `True`. -/
def delete_todo (todo_id : String) (fs : FS) : Bool × FS :=
  let loaded := _load_todos fs
  if (lookupKey loaded.1 todo_id).isSome then
    (true, _save_todos (delKey loaded.1 todo_id) loaded.2)
  else
    (false, loaded.2)

/-- One lowercase hexadecimal digit, as `uuid.UUID.__str__` prints them. -/
def hexDigit (n : Nat) : Char :=
  if n < 10 then Char.ofNat (48 + n) else Char.ofNat (87 + n)

/-- `width` hexadecimal digits of `x`, most significant first. -/
def hexChars (width x : Nat) : List Char :=
  (List.range width).map (fun i => hexDigit (x / 16 ^ (width - 1 - i) % 16))

/-- `str(uuid.uuid4())`: the canonical 8-4-4-4-12 hyphenated lowercase
hexadecimal rendering of a 128-bit value, here taken from the random seed
that `uuid.uuid4()` draws. -/
def uuidStr (seed : Nat) : String :=
  let m := seed % 2 ^ 128
  String.mk (hexChars 8 (m / 2 ^ 96) ++ '-' ::
    (hexChars 4 (m / 2 ^ 80 % 2 ^ 16) ++ '-' ::
      (hexChars 4 (m / 2 ^ 64 % 2 ^ 16) ++ '-' ::
        (hexChars 4 (m / 2 ^ 48 % 2 ^ 16) ++ '-' :: hexChars 12 (m % 2 ^ 48)))))

theorem hexChars_length (width x : Nat) : (hexChars width x).length = width := by
  simp [hexChars]

theorem uuidStr_length (seed : Nat) : (uuidStr seed).length = 36 := by
  simp [uuidStr, String.length, hexChars_length]

theorem uuidStr_ne_empty (seed : Nat) : uuidStr seed ≠ "" := by
  intro h
  have h2 := uuidStr_length seed
  rw [h] at h2
  exact absurd h2 (by decide)

/-- One store call with the values its internal generators produced:
`create` carries the generated id and timestamp, `update` the timestamp. -/
inductive StoreOp where
  | create (todo_id : String) (now : Nat) (title : String)
      (description : String) (completed : Bool) : StoreOp
  | update (todo_id : String) (data : UpdateData) (now : Nat) : StoreOp
  | delete (todo_id : String) : StoreOp
deriving DecidableEq

/-- The in-memory effect of one store call on the id-to-record mapping:
the modify step of the load-modify-save cycle, read off the bodies of
`create_todo`, `update_todo` and `delete_todo`. Replaying a call sequence
with this function against an empty mapping is the in-memory replay the
round-trip property compares against. -/
def applyOpMem (m : List (String × Todo)) : StoreOp → List (String × Todo)
  | StoreOp.create todo_id now title description completed =>
      setKey m todo_id
        { id := todo_id, title := title, description := description,
          completed := completed, due_date := none,
          created_at := now, updated_at := now }
  | StoreOp.update todo_id data now =>
      match lookupKey m todo_id with
      | none => m
      | some todo => setKey m todo_id (applyUpdate todo data now)
  | StoreOp.delete todo_id =>
      if (lookupKey m todo_id).isSome then delKey m todo_id else m

/-- Run one store call against the backing file, keeping the file system. -/
def runOp (fs : FS) : StoreOp → FS
  | StoreOp.create todo_id now title description completed =>
      (create_todo todo_id now title description completed fs).2
  | StoreOp.update todo_id data now => (update_todo todo_id data now fs).2
  | StoreOp.delete todo_id => (delete_todo todo_id fs).2

/-- Run a sequence of store calls against the backing file. -/
def runOps (fs : FS) (ops : List StoreOp) : FS := ops.foldl runOp fs

/-- In-memory replay of a call sequence against a fresh empty store. -/
def replayMem (ops : List StoreOp) : List (String × Todo) :=
  ops.foldl applyOpMem []

example :
    (create_todo "i1" 5 "Buy milk" "" false
        { db := FileContent.data [], sample := FileContent.absent }).2.db =
      FileContent.data [("i1",
        { id := "i1", title := "Buy milk", description := "",
          completed := false, due_date := none,
          created_at := 5, updated_at := 5 })] := by
  decide

example : uuidStr 0 = "00000000-0000-0000-0000-000000000000" := by decide

/-!
Fine-grained concurrency model for the locking discipline of
`json_db.py`. The module-level `file_lock` is acquired inside
`_load_todos` (`with file_lock:` around the whole load) and again,
separately, inside `_save_todos`; no lock is held between the two. A
`create_todo` call therefore performs six atomic events: acquire the lock
for the load, read the file into a thread-local snapshot, release;
acquire the lock for the save, write the snapshot plus the new record
back, release. The local dict mutation between load and save touches no
shared state and is folded into the write event.
-/

/-- Thread identifier for two concurrent callers. -/
inductive Tid where
  | A : Tid
  | B : Tid
deriving DecidableEq

/-- The six atomic events of one `create_todo` call under the source's
locking: lock acquisition and release around the load
(`_load_todos`, `with file_lock:`), and around the save
(`_save_todos`, `with file_lock:`). -/
inductive Act where
  | acqLoad : Act
  | readFile : Act
  | relLoad : Act
  | acqSave : Act
  | writeFile : Act
  | relSave : Act
deriving DecidableEq

/-- Arguments of one in-flight `create_todo` call, with the id and
timestamp its generators produced. -/
structure CreateJob where
  todo_id : String
  now : Nat
  title : String
  description : String
  completed : Bool
deriving DecidableEq

/-- The record a `create_todo` call builds (`json_db.py` lines 94-100). -/
def createRec (j : CreateJob) : Todo :=
  { id := j.todo_id, title := j.title, description := j.description,
    completed := j.completed, due_date := none,
    created_at := j.now, updated_at := j.now }

/-- Shared state: who holds `file_lock`, the contents of `DB_FILE`
(well-formed throughout this scenario), and each thread's local
`todos_db` snapshot. -/
structure CState where
  lock : Option Tid
  file : List (String × Todo)
  snapA : Option (List (String × Todo))
  snapB : Option (List (String × Todo))
deriving DecidableEq

def snapOf (s : CState) : Tid → Option (List (String × Todo))
  | Tid.A => s.snapA
  | Tid.B => s.snapB

def setSnap (s : CState) (t : Tid) (v : List (String × Todo)) : CState :=
  match t with
  | Tid.A => { s with snapA := some v }
  | Tid.B => { s with snapB := some v }

def jobOf (jA jB : CreateJob) : Tid → CreateJob
  | Tid.A => jA
  | Tid.B => jB

/-- One atomic event. `none` means the event cannot fire in this state: a
thread cannot acquire a held lock (it would block), and reads and writes
of the file happen only inside the thread's own lock-protected region,
exactly as in `_load_todos` and `_save_todos`. -/
def cstep (jA jB : CreateJob) (s : CState) : Tid × Act → Option CState
  | (t, Act.acqLoad) =>
      match s.lock with
      | none => some { s with lock := some t }
      | some _ => none
  | (t, Act.readFile) =>
      if s.lock = some t then some (setSnap s t s.file) else none
  | (t, Act.relLoad) =>
      if s.lock = some t then some { s with lock := none } else none
  | (t, Act.acqSave) =>
      match s.lock with
      | none => some { s with lock := some t }
      | some _ => none
  | (t, Act.writeFile) =>
      if s.lock = some t then
        match snapOf s t with
        | some snap =>
            let j := jobOf jA jB t
            some { s with file := setKey snap j.todo_id (createRec j) }
        | none => none
      else none
  | (t, Act.relSave) =>
      if s.lock = some t then some { s with lock := none } else none

/-- Run a schedule of atomic events; `none` when some event cannot fire,
i.e. the schedule is not realizable under the lock. -/
def crun (jA jB : CreateJob) : List (Tid × Act) → CState → Option CState
  | [], s => some s
  | e :: rest, s =>
      match cstep jA jB s e with
      | none => none
      | some s2 => crun jA jB rest s2

/-- The program order of one `create_todo` call by thread `t`:
load under the lock, then save under the lock. -/
def createProg (t : Tid) : List (Tid × Act) :=
  [(t, Act.acqLoad), (t, Act.readFile), (t, Act.relLoad),
   (t, Act.acqSave), (t, Act.writeFile), (t, Act.relSave)]

/-- `interleaves xs ys zs` holds when `zs` is an interleaving of `xs` and
`ys` that preserves the order within each: the schedules two concurrent
threads can produce. -/
def interleaves : List (Tid × Act) → List (Tid × Act) → List (Tid × Act) → Bool
  | [], [], [] => true
  | _, _, [] => false
  | xs, ys, z :: zs =>
      (match xs with
       | x :: xs2 => x = z && interleaves xs2 ys zs
       | [] => false) ||
      (match ys with
       | y :: ys2 => y = z && interleaves xs ys2 zs
       | [] => false)

/-- Initial state of the scenario: lock free, empty well-formed file. -/
def cinit : CState :=
  { lock := none, file := [], snapA := none, snapB := none }

/-- Thread A's call: create a record with id `"a"`. -/
def jobA : CreateJob :=
  { todo_id := "a", now := 1, title := "ta", description := "",
    completed := false }

/-- Thread B's call: create a record with id `"b"`. -/
def jobB : CreateJob :=
  { todo_id := "b", now := 1, title := "tb", description := "",
    completed := false }

/-- A schedule in which thread B's entire load-modify-save cycle runs
between thread A's load and A's save. -/
def interleavedSched : List (Tid × Act) :=
  [(Tid.A, Act.acqLoad), (Tid.A, Act.readFile), (Tid.A, Act.relLoad),
   (Tid.B, Act.acqLoad), (Tid.B, Act.readFile), (Tid.B, Act.relLoad),
   (Tid.B, Act.acqSave), (Tid.B, Act.writeFile), (Tid.B, Act.relSave),
   (Tid.A, Act.acqSave), (Tid.A, Act.writeFile), (Tid.A, Act.relSave)]

example : interleaves (createProg Tid.A) (createProg Tid.B) interleavedSched = true := by
  decide

example :
    (crun jobA jobB interleavedSched cinit).map CState.file =
      some [("a", createRec jobA)] := by
  decide

/-- The parameter names of `json_db.create_todo` (`json_db.py` line 87):
`def create_todo(title: str, description: str = "", completed: bool = False)`. -/
def create_todo_param_names : List String :=
  ["title", "description", "completed"]

/-- The keyword-argument names of the call `db.create_todo(...)` in the
POST handler `main.create_todo` (`main.py` lines 69-74): `title`,
`description`, `completed` and `due_date` are always passed. -/
def main_create_call_keywords : List String :=
  ["title", "description", "completed", "due_date"]

/-- All timestamps in the mapping are consistent at clock value `t`:
every record satisfies `created_at <= updated_at`, and no timestamp lies
in the future of `t`. -/
def TimesOk (t : Nat) (m : List (String × Todo)) : Prop :=
  ∀ p ∈ m, p.2.created_at ≤ p.2.updated_at ∧ p.2.updated_at ≤ t

theorem lookupKey_setKey_self (m : List (String × Todo)) (k : String)
    (v : Todo) : lookupKey (setKey m k v) k = some v := by
  induction m with
  | nil => simp [setKey, lookupKey]
  | cons p rest ih =>
      rcases p with ⟨pk, pv⟩
      by_cases h : pk = k
      · simp [setKey, lookupKey, h]
      · simp [setKey, lookupKey, h, ih]

theorem lookupKey_setKey_ne (m : List (String × Todo)) (k k2 : String)
    (v : Todo) (hne : k2 ≠ k) :
    lookupKey (setKey m k v) k2 = lookupKey m k2 := by
  have hkk2 : ¬ k = k2 := fun h => hne h.symm
  induction m with
  | nil => simp [setKey, lookupKey, hkk2]
  | cons p rest ih =>
      rcases p with ⟨pk, pv⟩
      by_cases h : pk = k
      · subst h
        simp [setKey, lookupKey, hkk2]
      · by_cases h2 : pk = k2
        · simp [setKey, lookupKey, h, h2, hne]
        · simp [setKey, lookupKey, h, h2, ih]

theorem lookupKey_eq_none (m : List (String × Todo)) (k : String)
    (h : lookupKey m k = none) : ∀ p ∈ m, p.1 ≠ k := by
  induction m with
  | nil => intro p hp; cases hp
  | cons q rest ih =>
      intro p hp
      rcases q with ⟨qk, qv⟩
      by_cases hq : qk = k
      · rw [lookupKey, if_pos hq] at h; cases h
      · rw [lookupKey, if_neg hq] at h
        rcases List.mem_cons.mp hp with hp2 | hp2
        · rw [hp2]; exact hq
        · exact ih h p hp2

theorem lookupKey_mem (m : List (String × Todo)) (k : String) (v : Todo)
    (h : lookupKey m k = some v) : (k, v) ∈ m := by
  induction m with
  | nil => cases h
  | cons q rest ih =>
      rcases q with ⟨qk, qv⟩
      by_cases hq : qk = k
      · rw [lookupKey, if_pos hq] at h
        cases h
        exact List.mem_cons.mpr (Or.inl (by rw [hq]))
      · rw [lookupKey, if_neg hq] at h
        exact List.mem_cons.mpr (Or.inr (ih h))

theorem mem_setKey (m : List (String × Todo)) (k : String) (v : Todo)
    (p : String × Todo) (hp : p ∈ setKey m k v) : p = (k, v) ∨ p ∈ m := by
  induction m with
  | nil =>
      rw [setKey] at hp
      rcases List.mem_cons.mp hp with h | h
      · exact Or.inl h
      · cases h
  | cons q rest ih =>
      rcases q with ⟨qk, qv⟩
      by_cases hq : qk = k
      · rw [setKey, if_pos hq] at hp
        rcases List.mem_cons.mp hp with h | h
        · exact Or.inl h
        · exact Or.inr (List.mem_cons.mpr (Or.inr h))
      · rw [setKey, if_neg hq] at hp
        rcases List.mem_cons.mp hp with h | h
        · exact Or.inr (List.mem_cons.mpr (Or.inl h))
        · rcases ih h with h2 | h2
          · exact Or.inl h2
          · exact Or.inr (List.mem_cons.mpr (Or.inr h2))

theorem mem_delKey (m : List (String × Todo)) (k : String)
    (p : String × Todo) (hp : p ∈ delKey m k) : p ∈ m := by
  induction m with
  | nil => rw [delKey] at hp; cases hp
  | cons q rest ih =>
      rcases q with ⟨qk, qv⟩
      by_cases hq : qk = k
      · rw [delKey, if_pos hq] at hp
        exact List.mem_cons.mpr (Or.inr hp)
      · rw [delKey, if_neg hq] at hp
        rcases List.mem_cons.mp hp with h | h
        · exact List.mem_cons.mpr (Or.inl h)
        · exact List.mem_cons.mpr (Or.inr (ih h))

theorem timesOk_mono (t t2 : Nat) (m : List (String × Todo))
    (hle : t ≤ t2) (h : TimesOk t m) : TimesOk t2 m := by
  intro p hp
  exact ⟨(h p hp).1, le_trans (h p hp).2 hle⟩

theorem applyUpdate_created_at (todo : Todo) (data : UpdateData)
    (now : Nat) : (applyUpdate todo data now).created_at = todo.created_at := by
  rcases data with ⟨t, d, c, dd⟩
  cases t <;> cases d <;> cases c <;> rfl

theorem applyUpdate_updated_at (todo : Todo) (data : UpdateData)
    (now : Nat) : (applyUpdate todo data now).updated_at = now := by
  rcases data with ⟨t, d, c, dd⟩
  cases t <;> cases d <;> cases c <;> rfl

theorem load_todos_data (fs : FS) (m : List (String × Todo))
    (h : fs.db = FileContent.data m) : _load_todos fs = (m, fs) := by
  rcases fs with ⟨db, sample⟩
  cases h
  rfl

theorem runOp_db (fs : FS) (m : List (String × Todo)) (op : StoreOp)
    (h : fs.db = FileContent.data m) :
    (runOp fs op).db = FileContent.data (applyOpMem m op) := by
  cases op with
  | create todo_id now title description completed =>
      simp [runOp, create_todo, load_todos_data fs m h, _save_todos, applyOpMem]
  | update todo_id data now =>
      cases hfind : lookupKey m todo_id with
      | none =>
          simp [runOp, update_todo, load_todos_data fs m h, applyOpMem, hfind, h]
      | some todo =>
          simp [runOp, update_todo, load_todos_data fs m h, _save_todos,
            applyOpMem, hfind]
  | delete todo_id =>
      cases hfind : (lookupKey m todo_id).isSome with
      | false =>
          simp [runOp, delete_todo, load_todos_data fs m h, applyOpMem, hfind, h]
      | true =>
          simp [runOp, delete_todo, load_todos_data fs m h, _save_todos,
            applyOpMem, hfind]

theorem runOps_db (ops : List StoreOp) :
    ∀ (fs : FS) (m : List (String × Todo)), fs.db = FileContent.data m →
      (runOps fs ops).db = FileContent.data (ops.foldl applyOpMem m) := by
  induction ops with
  | nil => intro fs m h; simpa [runOps] using h
  | cons op rest ih =>
      intro fs m h
      have hstep := runOp_db fs m op h
      simpa [runOps, List.foldl] using ih (runOp fs op) (applyOpMem m op) hstep

/-- A partial-update dict with no keys at all. -/
def emptyUpdate : UpdateData :=
  { title := none, description := none, completed := none, due_date := none }

/-- A partial-update dict containing only a `title` key. -/
def titleOnly (t : String) : UpdateData :=
  { title := some t, description := none, completed := none, due_date := none }

/-- Claim C6: starting from an empty store, after any sequence of
create/update/delete calls, the record set loaded back from the backing
file equals the in-memory result of replaying the same sequence against a
fresh empty store. -/
theorem round_trip_replay (sample : FileContent) (ops : List StoreOp) :
    (_load_todos
        (runOps { db := FileContent.data [], sample := sample } ops)).1 =
      replayMem ops := by
  have h := runOps_db ops { db := FileContent.data [], sample := sample } [] rfl
  rw [load_todos_data _ _ h]
  rfl

/-- Claim C4: when the backing file exists but is malformed, `_load_todos`
returns the empty mapping and overwrites the file with an empty structure,
and every store operation behaves exactly as it would on an empty
well-formed backing file; no operation signals an error for the corrupt
file (each is total and returns its ordinary result). -/
theorem malformed_treated_as_empty (fs : FS)
    (h : fs.db = FileContent.malformed) :
    _load_todos fs = ([], { fs with db := FileContent.data [] }) ∧
    get_all_todos fs = get_all_todos { fs with db := FileContent.data [] } ∧
    (∀ todo_id,
      get_todo todo_id fs =
        get_todo todo_id { fs with db := FileContent.data [] }) ∧
    (∀ todo_id now title description completed,
      create_todo todo_id now title description completed fs =
        create_todo todo_id now title description completed
          { fs with db := FileContent.data [] }) ∧
    (∀ todo_id data now,
      update_todo todo_id data now fs =
        update_todo todo_id data now { fs with db := FileContent.data [] }) ∧
    (∀ todo_id,
      delete_todo todo_id fs =
        delete_todo todo_id { fs with db := FileContent.data [] }) := by
  rcases fs with ⟨db, sample⟩
  cases h
  exact ⟨rfl, rfl, fun _ => rfl, fun _ _ _ _ _ => rfl, fun _ _ _ => rfl,
    fun _ => rfl⟩

theorem malformed_treated_as_empty_witness :
    get_all_todos { db := FileContent.malformed, sample := FileContent.absent } =
      get_all_todos { db := FileContent.data [], sample := FileContent.absent } :=
  (malformed_treated_as_empty
    { db := FileContent.malformed, sample := FileContent.absent } rfl).2.1

/-- Claim C5, counterexample: with the backing file present but malformed
(so the store is empty and the id `"x"` is not present), `update_todo`
returns `None` as claimed, yet the persisted file's contents after the
call differ from its contents before the call — the load step rewrote the
malformed file — so "the persisted file's contents are exactly as before
the call" fails. -/
theorem update_missing_id_rewrites_malformed_file :
    (update_todo "x" emptyUpdate 0
        { db := FileContent.malformed, sample := FileContent.absent }).1 =
      none ∧
    (update_todo "x" emptyUpdate 0
        { db := FileContent.malformed, sample := FileContent.absent }).2 ≠
      { db := FileContent.malformed, sample := FileContent.absent } := by
  decide

/-- Claim C5, amended: for every id not present in the store, `update_todo`
returns `None` and performs no save — the file system after the call is
exactly the file system after the bare load; in particular, when the
backing file exists and parses, the call leaves the file system entirely
unchanged (same contents, same record count). (A backing file that is
absent or malformed may still be rewritten by the load step itself, as
with every operation.) -/
theorem update_missing_id_no_save (todo_id : String) (data : UpdateData)
    (now : Nat) (fs : FS)
    (h : lookupKey (_load_todos fs).1 todo_id = none) :
    (update_todo todo_id data now fs).1 = none ∧
    (update_todo todo_id data now fs).2 = (_load_todos fs).2 ∧
    ∀ m, fs.db = FileContent.data m →
      update_todo todo_id data now fs = (none, fs) := by
  refine ⟨?_, ?_, ?_⟩
  · simp [update_todo, h]
  · simp [update_todo, h]
  · intro m hm
    have hl := load_todos_data fs m hm
    rw [hl] at h
    simp [update_todo, hl, h]

theorem update_missing_id_no_save_witness :
    update_todo "x" emptyUpdate 0
        { db := FileContent.data [], sample := FileContent.absent } =
      (none, { db := FileContent.data [], sample := FileContent.absent }) :=
  ((update_missing_id_no_save "x" emptyUpdate 0
      { db := FileContent.data [], sample := FileContent.absent }
      (by decide)).2.2) [] rfl

/-- Claim C7: updating an existing record with a dict containing only a
`title` key returns and stores a record that differs from the old one in
`title` and `updated_at` alone — `description`, `completed`, `due_date`
and `created_at` are carried over — and the lookup of every other id in
the stored mapping is unchanged. -/
theorem update_title_only_frame (fs : FS) (m : List (String × Todo))
    (todo_id : String) (todo : Todo) (t : String) (now : Nat)
    (hdb : fs.db = FileContent.data m)
    (hfind : lookupKey m todo_id = some todo) :
    (update_todo todo_id (titleOnly t) now fs).1 =
      some { todo with title := t, updated_at := now } ∧
    (update_todo todo_id (titleOnly t) now fs).2 =
      { fs with db := FileContent.data (setKey m todo_id { todo with title := t, updated_at := now }) } ∧
    ∀ k, k ≠ todo_id →
      lookupKey (setKey m todo_id { todo with title := t, updated_at := now }) k =
        lookupKey m k := by
  have hl := load_todos_data fs m hdb
  have happ : applyUpdate todo (titleOnly t) now =
      { todo with title := t, updated_at := now } := rfl
  refine ⟨?_, ?_, ?_⟩
  · simp [update_todo, hl, hfind, happ]
  · simp [update_todo, hl, hfind, happ, _save_todos]
  · intro k hk
    exact lookupKey_setKey_ne m todo_id k _ hk

/-- Claim C8: with every timestamp in the store consistent at clock `t`
and a non-decreasing clock (`t ≤ now`), `create_todo` returns a record
with `created_at` equal to `updated_at` and leaves every stored record
satisfying `created_at ≤ updated_at`; `update_todo` on an existing record
stamps `updated_at = now`, which is no earlier than the record's previous
`updated_at`, and likewise preserves `created_at ≤ updated_at` for every
stored record; `delete_todo` preserves the invariant as well. -/
theorem created_le_updated_invariant (t now : Nat) (fs : FS)
    (m : List (String × Todo)) (hdb : fs.db = FileContent.data m)
    (hinv : TimesOk t m) (hclock : t ≤ now) :
    (∀ todo_id title description completed,
      (create_todo todo_id now title description completed fs).1.created_at =
        (create_todo todo_id now title description completed fs).1.updated_at ∧
      ∀ m2, (create_todo todo_id now title description completed fs).2.db =
          FileContent.data m2 → TimesOk now m2) ∧
    (∀ todo_id data todo, lookupKey m todo_id = some todo →
      (update_todo todo_id data now fs).1 = some (applyUpdate todo data now) ∧
      (applyUpdate todo data now).updated_at = now ∧
      todo.updated_at ≤ now ∧
      ∀ m2, (update_todo todo_id data now fs).2.db = FileContent.data m2 →
        TimesOk now m2) ∧
    (∀ todo_id m2, (delete_todo todo_id fs).2.db = FileContent.data m2 →
      TimesOk now m2) := by
  have hl := load_todos_data fs m hdb
  refine ⟨?_, ?_, ?_⟩
  · intro todo_id title description completed
    refine ⟨rfl, ?_⟩
    intro m2 hm2
    have h1 := runOp_db fs m
      (StoreOp.create todo_id now title description completed) hdb
    have h2 : (create_todo todo_id now title description completed fs).2.db =
        FileContent.data (applyOpMem m
          (StoreOp.create todo_id now title description completed)) := h1
    rw [h2] at hm2
    injection hm2 with hm3
    rw [← hm3]
    intro p hp
    rcases mem_setKey m todo_id _ p hp with hpe | hpm
    · rw [hpe]
      exact ⟨le_refl now, le_refl now⟩
    · exact timesOk_mono t now m hclock hinv p hpm
  · intro todo_id data todo hfind
    refine ⟨by simp [update_todo, hl, hfind], applyUpdate_updated_at todo data now, ?_, ?_⟩
    · exact le_trans (hinv (todo_id, todo) (lookupKey_mem m todo_id todo hfind)).2 hclock
    · intro m2 hm2
      have h1 := runOp_db fs m (StoreOp.update todo_id data now) hdb
      have happ : applyOpMem m (StoreOp.update todo_id data now) =
          setKey m todo_id (applyUpdate todo data now) := by
        simp [applyOpMem, hfind]
      have h2 : (update_todo todo_id data now fs).2.db =
          FileContent.data (setKey m todo_id (applyUpdate todo data now)) := by
        rw [← happ]
        exact h1
      rw [h2] at hm2
      injection hm2 with hm3
      rw [← hm3]
      intro p hp
      rcases mem_setKey m todo_id _ p hp with hpe | hpm
      · rw [hpe]
        constructor
        · rw [applyUpdate_created_at, applyUpdate_updated_at]
          have hmem := hinv (todo_id, todo) (lookupKey_mem m todo_id todo hfind)
          exact le_trans hmem.1 (le_trans hmem.2 hclock)
        · rw [applyUpdate_updated_at]
      · exact timesOk_mono t now m hclock hinv p hpm
  · intro todo_id m2 hm2
    have h1 := runOp_db fs m (StoreOp.delete todo_id) hdb
    have h2 : (delete_todo todo_id fs).2.db =
        FileContent.data (applyOpMem m (StoreOp.delete todo_id)) := h1
    rw [h2] at hm2
    injection hm2 with hm3
    rw [← hm3]
    by_cases hdel : (lookupKey m todo_id).isSome
    · intro p hp
      rw [applyOpMem, if_pos hdel] at hp
      exact timesOk_mono t now m hclock hinv p (mem_delKey m todo_id p hp)
    · intro p hp
      rw [applyOpMem, if_neg hdel] at hp
      exact timesOk_mono t now m hclock hinv p hp

/-- Claim C9: `create_todo` applied to a freshly generated uuid string
returns a record whose id is the 36-character uuid rendering — in
particular non-empty — and, granted that the drawn uuid does not collide
with a stored id (the premise `uuid.uuid4()` provides with overwhelming
probability and that the code does not itself check), distinct from the
key of every record already in the store. -/
theorem create_id_nonempty_and_fresh (seed : Nat) (fs : FS) (now : Nat)
    (title description : String) (completed : Bool)
    (hfresh : lookupKey (_load_todos fs).1 (uuidStr seed) = none) :
    (create_todo (uuidStr seed) now title description completed fs).1.id ≠ "" ∧
    ∀ p ∈ (_load_todos fs).1,
      p.1 ≠ (create_todo (uuidStr seed) now title description completed fs).1.id := by
  constructor
  · exact uuidStr_ne_empty seed
  · intro p hp
    exact lookupKey_eq_none _ _ hfresh p hp

/-- Claim C10: `get_all_todos` and `get_todo` are not write-free at the
file level: whenever the primary file is absent or malformed they rewrite
it before returning — seeded with the sample file's mapping when the
primary file is absent and the sample parses, and with the empty mapping
when the sample is absent or malformed or the primary file itself is
malformed. -/
theorem read_ops_write_file (fs : FS) (todo_id : String) :
    ((fs.db = FileContent.absent ∨ fs.db = FileContent.malformed) →
      ∃ m2, (get_all_todos fs).2.db = FileContent.data m2 ∧
        (get_todo todo_id fs).2.db = FileContent.data m2) ∧
    (∀ m, fs.db = FileContent.absent → fs.sample = FileContent.data m →
      (get_all_todos fs).2.db = FileContent.data m ∧
      (get_todo todo_id fs).2.db = FileContent.data m) ∧
    (fs.db = FileContent.absent →
      (fs.sample = FileContent.absent ∨ fs.sample = FileContent.malformed) →
      (get_all_todos fs).2.db = FileContent.data [] ∧
      (get_todo todo_id fs).2.db = FileContent.data []) ∧
    (fs.db = FileContent.malformed →
      (get_all_todos fs).2.db = FileContent.data [] ∧
      (get_todo todo_id fs).2.db = FileContent.data []) := by
  rcases fs with ⟨db, sample⟩
  cases db with
  | absent =>
      cases sample with
      | absent =>
          exact ⟨fun _ => ⟨[], rfl, rfl⟩, fun m _ h2 => (by cases h2),
            fun _ _ => ⟨rfl, rfl⟩, fun h => (by cases h)⟩
      | malformed =>
          exact ⟨fun _ => ⟨[], rfl, rfl⟩, fun m _ h2 => (by cases h2),
            fun _ _ => ⟨rfl, rfl⟩, fun h => (by cases h)⟩
      | data m0 =>
          exact ⟨fun _ => ⟨m0, rfl, rfl⟩,
            fun m _ h2 => (by cases h2; exact ⟨rfl, rfl⟩),
            fun _ h2 => (by rcases h2 with h | h <;> cases h),
            fun h => (by cases h)⟩
  | malformed =>
      exact ⟨fun _ => ⟨[], rfl, rfl⟩, fun m h1 _ => (by cases h1),
        fun h1 _ => (by cases h1), fun _ => ⟨rfl, rfl⟩⟩
  | data m0 =>
      exact ⟨fun h => (by rcases h with h | h <;> cases h),
        fun m h1 _ => (by cases h1), fun h1 _ => (by cases h1),
        fun h => (by cases h)⟩

/-- Claim C2 (code bug): the POST handler `main.create_todo` always calls
`db.create_todo` with a `due_date` keyword argument, but the parameter
list of `json_db.create_todo` has no such name — in Python the call
raises `TypeError: unexpected keyword argument` — and the record
`json_db.create_todo` builds carries no `due_date` key at all, so no
created record can contain a supplied due date. -/
theorem create_due_date_dropped :
    ("due_date" ∈ main_create_call_keywords ∧
      "due_date" ∉ create_todo_param_names) ∧
    (create_todo "i1" 5 "Buy milk" "" false
        { db := FileContent.data [], sample := FileContent.absent }).1.due_date =
      none := by
  decide

/-- A stored record with no due date, used as the update fixture. -/
def plainRec : Todo :=
  { id := "i1", title := "t", description := "", completed := false,
    due_date := none, created_at := 3, updated_at := 3 }

/-- A store holding exactly `plainRec` under its id. -/
def plainFS : FS :=
  { db := FileContent.data [("i1", plainRec)], sample := FileContent.absent }

/-- A partial-update dict containing only a `due_date` key. -/
def dueDateOnly : UpdateData :=
  { title := none, description := none, completed := none,
    due_date := some "2026-01-01T00:00:00" }

/-- Claim C3 (code bug): `json_db.update_todo` consults only the `title`,
`description` and `completed` keys of its dict; a `due_date` key is
silently ignored. Updating a record with a dict containing only
`due_date` returns the record with just `updated_at` restamped — its
`due_date` is not changed to the supplied value. -/
theorem update_due_date_ignored :
    (update_todo "i1" dueDateOnly 7 plainFS).1 =
      some { plainRec with updated_at := 7 } ∧
    (update_todo "i1" dueDateOnly 7 plainFS).1 ≠
      some { plainRec with due_date := some "2026-01-01T00:00:00", updated_at := 7 } := by
  decide

/-- Claim C1, counterexample: it is not the case that every realizable
schedule of two concurrent `create_todo` calls keeps the two
load-modify-save cycles disjoint. The schedule `interleavedSched` is an
interleaving of the two programs, every step fires under the source's
locking discipline, yet thread B's whole cycle runs between thread A's
load and A's save. -/
theorem create_cycles_can_interleave :
    ¬ ∀ s, interleaves (createProg Tid.A) (createProg Tid.B) s = true →
        (crun jobA jobB s cinit).isSome = true →
        (s = createProg Tid.A ++ createProg Tid.B ∨
          s = createProg Tid.B ++ createProg Tid.A) := by
  intro h
  have h2 := h interleavedSched (by decide) (by decide)
  rcases h2 with h2 | h2 <;> exact absurd h2 (by decide)

/-- Claim C1, amended: each load and each save of the backing file runs
under the exclusive store lock — two threads can never hold the lock at
once, so individual file accesses do not overlap — but the lock is
released between an operation's load and its save, so a second
operation's entire load-modify-save cycle can execute between one
operation's load and its save. Either serial order of two creates keeps
both records, while the interleaved schedule is realizable and loses
thread B's record (a lost update). -/
theorem per_access_lock_cycles_interleave :
    crun jobA jobB [(Tid.A, Act.acqLoad), (Tid.B, Act.acqLoad)] cinit = none ∧
    (crun jobA jobB (createProg Tid.A ++ createProg Tid.B) cinit).map CState.file =
      some [("a", createRec jobA), ("b", createRec jobB)] ∧
    (crun jobA jobB (createProg Tid.B ++ createProg Tid.A) cinit).map CState.file =
      some [("b", createRec jobB), ("a", createRec jobA)] ∧
    interleaves (createProg Tid.A) (createProg Tid.B) interleavedSched = true ∧
    (crun jobA jobB interleavedSched cinit).map CState.file =
      some [("a", createRec jobA)] := by
  decide

theorem update_title_only_frame_witness :
    (update_todo "i1" (titleOnly "X") 9 plainFS).1 =
      some { plainRec with title := "X", updated_at := 9 } :=
  (update_title_only_frame plainFS [("i1", plainRec)] "i1" plainRec "X" 9
    rfl (by decide)).1

theorem created_le_updated_invariant_witness :
    (create_todo "i2" 5 "t2" "" false plainFS).1.created_at =
      (create_todo "i2" 5 "t2" "" false plainFS).1.updated_at :=
  ((created_le_updated_invariant 4 5 plainFS [("i1", plainRec)] rfl
    (by intro p hp
        rw [List.mem_singleton] at hp
        subst hp
        exact ⟨by decide, by decide⟩)
    (by decide)).1 "i2" "t2" "" false).1

theorem create_id_nonempty_and_fresh_witness :
    (create_todo (uuidStr 0) 1 "t" "" false
        { db := FileContent.data [], sample := FileContent.absent }).1.id ≠ "" :=
  (create_id_nonempty_and_fresh 0
    { db := FileContent.data [], sample := FileContent.absent } 1 "t" "" false
    (by decide)).1

/-- A file system whose primary file is missing but whose sample file
holds one record. -/
def seededFS : FS :=
  { db := FileContent.absent, sample := FileContent.data [("s1", plainRec)] }

theorem read_ops_write_file_witness :
    (get_all_todos seededFS).2.db = FileContent.data [("s1", plainRec)] ∧
    (get_todo "q" seededFS).2.db = FileContent.data [("s1", plainRec)] :=
  (read_ops_write_file seededFS "q").2.1 [("s1", plainRec)] rfl rfl
